import Mathlib

/-!
Shallow embedding of the `remote-ref` library (src/src/lib.rs).

The library stores values in an index-stable arena (`ObjectStore`, backed by
the external `slab` crate) and hands out cloneable handles (`ObjectRef`)
that carry a shared atomic strong reference (`Arc<PhantomData>`); each arena
slot records a `Weak` witness of that `Arc`.  We model:

* an `Arc` allocation by a numeric marker id; pointer equality on
  `Arc::as_ptr` / `Weak::as_ptr` becomes equality of marker ids;
* the shared atomic reference counts by `RcWorld`, a map from marker id to
  its current strong count plus a supply of fresh ids;
* the arena (`Slab`) by a list of optional slots: `some` is an occupied
  entry, `none` a vacant one.  The slab crate is an external dependency,
  specified only at its interface (stable indices, O(1) insert reusing
  vacant slots, index-stable `retain`), so its operations are modelled from
  that interface rather than from source in this repository;
* panics (slab indexing a vacant slot, the `assert_eq!` in `remove`) by a
  `none` result of the operation.

Dropping or cloning a handle only touches the counts in `RcWorld`, exactly
as in the Rust code where `Drop`/`Clone` of `ObjectRef` only touch the
`Arc`; `Op`/`step` below give the small-step semantics of a thread
performing insert/clone/drop, used for the counting invariant.
-/

namespace RemoteRef

/-- The handle `ObjectRef<T>` of src/src/lib.rs: a slot index plus the
identity of the shared strong marker (the `Arc` allocation), modelled as a
marker id. -/
structure ObjectRef where
  index : Nat
  rc : Nat
deriving DecidableEq, Repr

/-- A slot's payload `Object<T>`: the recorded weak witness (the marker id
the slot's `Weak` points to) and the stored value. -/
structure Object (T : Type) where
  rc : Nat
  data : T
deriving DecidableEq, Repr

/-- Modelled from the spec: the arena ("slab" crate, an external given
primitive) is an index-addressed container with stable indices; occupied
slots are `some`, vacant (free-listed) slots are `none`. -/
abbrev Slab (T : Type) : Type := List (Option (Object T))

variable {T : Type}

/-- Reading slot `i`: `some` when occupied, `none` when vacant or out of
bounds (slab indexing panics in both cases). -/
def slabGet (s : Slab T) (i : Nat) : Option (Object T) :=
  s.getD i none

/-- Modelled from the spec: the index a fresh insertion gets — a vacant
slot when one exists (index reuse), otherwise the end of the array. -/
def slabFreeIdx (s : Slab T) : Nat :=
  s.findIdx Option.isNone

/-- Modelled from the spec: O(1) insert that reuses a freed slot when one
exists, otherwise grows the array by one; returns the new slab and the
index of the new slot. -/
def slabInsert (s : Slab T) (a : Object T) : Slab T × Nat :=
  let i := slabFreeIdx s
  if i < s.length then (s.set i (some a), i) else (s ++ [some a], i)

/-- Modelled from the spec: removal by index vacates the slot, never
renumbering any other slot. -/
def slabRemoveAt (s : Slab T) (i : Nat) : Slab T :=
  s.set i none

/-- Modelled from the spec: `slab.retain` keeps the slots satisfying the
predicate and vacates the rest, keeping all surviving indices valid. -/
def slabRetain (p : Object T → Bool) (s : Slab T) : Slab T :=
  s.map (fun o => o.bind (fun a => if p a then some a else none))

/-- The world of shared atomic reference counts: the current strong count
of every marker id, and the next fresh id handed to `Arc::new`. -/
structure RcWorld where
  strong : Nat → Nat
  fresh : Nat

/-- `ObjectStore<T>`: the arena of slots. -/
structure ObjectStore (T : Type) where
  slab : Slab T

/-- `ObjectStore::default()`: an empty store. -/
def emptyStore (T : Type) : ObjectStore T :=
  ⟨[]⟩

/-- `ObjectStore::insert`: allocate a fresh strong marker with count 1
(the clone returned inside the handle; the local original is dropped at the
end of `insert`), store the value together with a weak witness of the
marker in a new slot, and return the handle. -/
def insert (w : RcWorld) (st : ObjectStore T) (v : T) :
    RcWorld × ObjectStore T × ObjectRef :=
  let m := w.fresh
  let p := slabInsert st.slab ⟨m, v⟩
  (⟨fun k => if k = m then 1 else w.strong k, m + 1⟩, ⟨p.1⟩, ⟨p.2, m⟩)

/-- `ObjectRef::clone` (derived `Clone`): bump the marker's strong count,
yield a handle with the same index and marker. -/
def cloneRef (w : RcWorld) (h : ObjectRef) : RcWorld × ObjectRef :=
  (⟨fun k => if k = h.rc then w.strong k + 1 else w.strong k, w.fresh⟩, h)

/-- Dropping an `ObjectRef`: the `Arc` drop decrements the marker's strong
count; nothing else happens (no slot is touched). -/
def dropRef (w : RcWorld) (h : ObjectRef) : RcWorld :=
  ⟨fun k => if k = h.rc then w.strong k - 1 else w.strong k, w.fresh⟩

/-- `ObjectStore::get`: a plain index lookup `&self.slab[obj_ref.index]`;
`none` models the slab-indexing panic on a vacant slot. -/
def get (st : ObjectStore T) (h : ObjectRef) : Option T :=
  (slabGet st.slab h.index).map Object.data

/-- `ObjectStore::get_mut`: the same index lookup as `get`, resolving to
the mutable reference `&mut self.slab[obj_ref.index].data`. -/
def getMut (st : ObjectStore T) (h : ObjectRef) : Option T :=
  (slabGet st.slab h.index).map Object.data

/-- `ObjectStore::clean`: `slab.retain` keeps exactly the slots whose weak
witness still reports a positive strong count. -/
def clean (w : RcWorld) (st : ObjectStore T) : ObjectStore T :=
  ⟨slabRetain (fun obj => 0 < w.strong obj.rc) st.slab⟩

/-- `ObjectStore::remove`: index the slab (panic when vacant), assert that
the handle's `Arc` pointer equals the slot's `Weak` pointer (panic on
mismatch), then `Arc::try_unwrap`: when this handle is the sole strong
holder the slot is removed and the value returned, otherwise the handle is
just consumed (its strong reference dropped) and `none` signals "still
referenced".  The outer `Option` is `none` on panic. -/
def remove (w : RcWorld) (st : ObjectStore T) (h : ObjectRef) :
    Option (RcWorld × ObjectStore T × Option T) :=
  match slabGet st.slab h.index with
  | none => none
  | some obj =>
    if obj.rc = h.rc then
      if w.strong h.rc = 1 then
        some (⟨fun k => if k = h.rc then 0 else w.strong k, w.fresh⟩,
          ⟨slabRemoveAt st.slab h.index⟩, some obj.data)
      else
        some (dropRef w h, st, none)
    else
      none

/-- One thread-visible operation on handles: insert a value, clone the
`j`-th live handle, or drop the `j`-th live handle. -/
inductive Op (T : Type) where
  | ins (v : T)
  | cl (j : Nat)
  | dr (j : Nat)

/-- A state of the whole system during a run: the refcount world, the
store, and the list of live (un-dropped) handles. -/
structure TState (T : Type) where
  world : RcWorld
  store : ObjectStore T
  handles : List ObjectRef

/-- Small-step semantics of insert/clone/drop over the live-handle list;
an out-of-range clone or drop is a no-op. -/
def step (s : TState T) : Op T → TState T
  | .ins v =>
    let r := insert s.world s.store v
    ⟨r.1, r.2.1, r.2.2 :: s.handles⟩
  | .cl j =>
    match s.handles.get? j with
    | some h => ⟨(cloneRef s.world h).1, s.store, (cloneRef s.world h).2 :: s.handles⟩
    | none => s
  | .dr j =>
    match s.handles.get? j with
    | some h => ⟨dropRef s.world h, s.store, s.handles.eraseIdx j⟩
    | none => s

/-- The initial state: no markers allocated, empty store, no handles. -/
def init (T : Type) : TState T :=
  ⟨⟨fun _ => 0, 0⟩, emptyStore T, []⟩

/-- Run a list of operations from the initial state. -/
def run (ops : List (Op T)) : TState T :=
  ops.foldl step (init T)

/-! ### Basic facts about the slab model -/

theorem slabGet_eq_some_iff (s : Slab T) (i : Nat) (obj : Object T) :
    slabGet s i = some obj ↔ s[i]? = some (some obj) := by
  unfold slabGet
  rw [List.getD_eq_getElem?_getD]
  cases s[i]? with
  | none => simp
  | some o => simp

theorem lt_length_of_slabGet (s : Slab T) {i : Nat} {obj : Object T}
    (h : slabGet s i = some obj) : i < s.length := by
  by_contra hge
  rw [slabGet_eq_some_iff] at h
  rw [List.getElem?_eq_none (Nat.le_of_not_lt hge)] at h
  exact Option.noConfusion h

theorem slabGet_retain (p : Object T → Bool) (s : Slab T) (i : Nat) :
    slabGet (slabRetain p s) i =
      (slabGet s i).bind (fun a => if p a then some a else none) := by
  unfold slabGet slabRetain
  rw [List.getD_eq_getElem?_getD, List.getD_eq_getElem?_getD, List.getElem?_map]
  cases s[i]? with
  | none => rfl
  | some o => cases o <;> rfl

theorem slabGet_set_self (s : Slab T) (i : Nat) (o : Option (Object T))
    (h : i < s.length) : slabGet (s.set i o) i = o := by
  unfold slabGet
  rw [List.getD_eq_getElem?_getD, List.getElem?_set]
  simp [h]

theorem slabGet_set_ne (s : Slab T) {i j : Nat} (o : Option (Object T))
    (h : i ≠ j) : slabGet (s.set i o) j = slabGet s j := by
  unfold slabGet
  rw [List.getD_eq_getElem?_getD, List.getD_eq_getElem?_getD, List.getElem?_set]
  simp [h]

theorem slabFreeIdx_vacant (s : Slab T) (h : slabFreeIdx s < s.length) :
    slabGet s (slabFreeIdx s) = none := by
  unfold slabGet
  rw [List.getD_eq_getElem?_getD, List.getElem?_eq_getElem h]
  have hfi : (s[slabFreeIdx s]).isNone = true := List.findIdx_getElem (w := h)
  rw [Option.isNone_iff_eq_none] at hfi
  simp [hfi]

theorem slabGet_insert_preserved (s : Slab T) (a : Object T) {i : Nat}
    {obj : Object T} (h : slabGet s i = some obj) :
    slabGet (slabInsert s a).1 i = some obj := by
  unfold slabInsert
  by_cases hlt : slabFreeIdx s < s.length
  · simp only [hlt, if_pos]
    have hne : slabFreeIdx s ≠ i := by
      intro he
      have hv := slabFreeIdx_vacant s hlt
      rw [he, h] at hv
      exact Option.noConfusion hv
    rw [slabGet_set_ne s _ hne]
    exact h
  · simp only [hlt, if_neg, not_false_iff]
    have hi : i < s.length := lt_length_of_slabGet s h
    rw [slabGet_eq_some_iff] at h ⊢
    rw [List.getElem?_append]
    simp [hi, h]

theorem slabGet_insert_new (s : Slab T) (a : Object T) :
    slabGet (slabInsert s a).1 (slabInsert s a).2 = some a := by
  unfold slabInsert
  by_cases hlt : slabFreeIdx s < s.length
  · simp only [hlt, if_pos]
    rw [slabGet_set_self s _ _ hlt]
  · simp only [hlt, if_neg, not_false_iff]
    have heq : slabFreeIdx s = s.length :=
      Nat.le_antisymm (List.findIdx_le_length _) (Nat.le_of_not_lt hlt)
    rw [slabGet_eq_some_iff, heq, List.getElem?_concat_length]

theorem countP_eraseIdx_get (p : ObjectRef → Bool) :
    ∀ (l : List ObjectRef) (j : Nat) (h : ObjectRef), l.get? j = some h →
      (l.eraseIdx j).countP p = l.countP p - (if p h then 1 else 0) := by
  intro l
  induction l with
  | nil => intro j h hj; cases j <;> exact Option.noConfusion hj
  | cons a t ih =>
    intro j h hj
    cases j with
    | zero =>
      rw [List.get?_eq_getElem?] at hj
      simp only [List.getElem?_cons_zero, Option.some.injEq] at hj
      subst hj
      simp only [List.eraseIdx_cons_zero, List.countP_cons]
      omega
    | succ j =>
      rw [List.get?_eq_getElem?] at hj
      simp only [List.getElem?_cons_succ] at hj
      rw [← List.get?_eq_getElem?] at hj
      have hmem : h ∈ t := by
        rw [List.get?_eq_getElem?] at hj
        exact List.getElem?_mem hj
      have hp : (if p h then 1 else 0) ≤ t.countP p := by
        by_cases hph : p h
        · simp only [hph, if_pos]
          exact List.countP_pos_iff.mpr ⟨h, hmem, hph⟩
        · simp [hph]
      simp only [List.eraseIdx_cons_succ, List.countP_cons, ih j h hj]
      omega

/-! ### The counting invariant for insert/clone/drop runs -/

/-- The reachable-state invariant: every live handle uses an
already-allocated marker, and each marker's strong count equals the number
of live handles carrying it. -/
def goodState (s : TState T) : Prop :=
  (∀ h ∈ s.handles, h.rc < s.world.fresh) ∧
  (∀ m, s.world.strong m = s.handles.countP (fun h => h.rc == m))

theorem goodState_init : goodState (init T) := by
  constructor
  · intro h hh
    exact absurd hh (List.not_mem_nil h)
  · intro m
    rfl

theorem goodState_step (s : TState T) (hs : goodState s) (op : Op T) :
    goodState (step s op) := by
  obtain ⟨hfresh, hcount⟩ := hs
  cases op with
  | ins v =>
    constructor
    · intro h hh
      simp only [step, insert] at hh ⊢
      rcases List.mem_cons.mp hh with he | ht
      · rw [he]
        exact Nat.lt_succ_self _
      · exact Nat.lt_succ_of_lt (hfresh h ht)
    · intro m
      simp only [step, insert, List.countP_cons]
      by_cases hm : m = s.world.fresh
      · have hz : s.handles.countP (fun h => h.rc == s.world.fresh) = 0 := by
          rw [List.countP_eq_zero]
          intro h hh
          simp only [beq_iff_eq]
          exact Nat.ne_of_lt (hfresh h hh)
        simp [hm, hz]
      · have : ¬((s.world.fresh : Nat) == m) = true := by
          simp only [beq_iff_eq]
          exact fun he => hm he.symm
        simp only [if_neg hm, this, if_false, Nat.add_zero]
        exact hcount m
  | cl j =>
    simp only [step]
    cases hj : s.handles.get? j with
    | none => exact ⟨hfresh, hcount⟩
    | some h =>
      have hmem : h ∈ s.handles := by
        rw [List.get?_eq_getElem?] at hj
        exact List.getElem?_mem hj
      constructor
      · intro h2 hh2
        simp only [cloneRef] at hh2 ⊢
        rcases List.mem_cons.mp hh2 with he | ht
        · rw [he]
          exact hfresh h hmem
        · exact hfresh h2 ht
      · intro m
        simp only [cloneRef, List.countP_cons]
        by_cases hm : h.rc = m
        · rw [if_pos hm.symm, hcount m]
          have hb : ((h.rc : Nat) == m) = true := beq_iff_eq.mpr hm
          simp [hb]
        · have : ¬((h.rc : Nat) == m) = true := by
            simp only [beq_iff_eq]
            exact hm
          simp only [this, if_false, Nat.add_zero]
          rw [if_neg (fun he : m = h.rc => hm he.symm)]
          exact hcount m
  | dr j =>
    simp only [step]
    cases hj : s.handles.get? j with
    | none => exact ⟨hfresh, hcount⟩
    | some h =>
      have hmem : h ∈ s.handles := by
        rw [List.get?_eq_getElem?] at hj
        exact List.getElem?_mem hj
      constructor
      · intro h2 hh2
        simp only [dropRef]
        exact hfresh h2 (List.mem_of_mem_eraseIdx hh2)
      · intro m
        simp only [dropRef]
        rw [countP_eraseIdx_get _ s.handles j h hj]
        by_cases hm : m = h.rc
        · rw [if_pos hm, hcount m]
          have hb : ((h.rc : Nat) == m) = true := beq_iff_eq.mpr hm.symm
          simp [hb]
        · have : ¬((h.rc : Nat) == m) = true := by
            simp only [beq_iff_eq]
            exact fun he => hm he.symm
          simp only [if_neg hm, this, if_false, Nat.sub_zero]
          exact hcount m

theorem goodState_foldl (ops : List (Op T)) :
    ∀ s : TState T, goodState s → goodState (ops.foldl step s) := by
  induction ops with
  | nil => intro s hs; exact hs
  | cons op rest ih =>
    intro s hs
    exact ih (step s op) (goodState_step s hs op)

theorem goodState_run (ops : List (Op T)) : goodState (run ops) :=
  goodState_foldl ops (init T) goodState_init

/-! ### Shared characterizations of clean and remove -/

theorem slabGet_clean (w : RcWorld) (st : ObjectStore T) (i : Nat)
    (obj : Object T) :
    slabGet (clean w st).slab i = some obj ↔
      slabGet st.slab i = some obj ∧ 0 < w.strong obj.rc := by
  simp only [clean]
  rw [slabGet_retain]
  cases hg : slabGet st.slab i with
  | none => simp
  | some a =>
    simp only [Option.some_bind, decide_eq_true_eq]
    by_cases hp : 0 < w.strong a.rc
    · rw [if_pos hp]
      constructor
      · intro he
        injection he with he1
        subst he1
        exact ⟨rfl, hp⟩
      · intro he
        exact he.1
    · rw [if_neg hp]
      constructor
      · intro he
        exact Option.noConfusion he
      · intro he
        injection he.1 with he1
        subst he1
        exact absurd he.2 hp

theorem remove_of_last (w : RcWorld) (st : ObjectStore T) (h : ObjectRef)
    (obj : Object T) (hocc : slabGet st.slab h.index = some obj)
    (hid : obj.rc = h.rc) (h1 : w.strong h.rc = 1) :
    remove w st h =
      some (⟨fun k => if k = h.rc then 0 else w.strong k, w.fresh⟩,
        ⟨slabRemoveAt st.slab h.index⟩, some obj.data) := by
  simp [remove, hocc, hid, h1]

theorem remove_of_shared (w : RcWorld) (st : ObjectStore T) (h : ObjectRef)
    (obj : Object T) (hocc : slabGet st.slab h.index = some obj)
    (hid : obj.rc = h.rc) (h1 : w.strong h.rc ≠ 1) :
    remove w st h = some (dropRef w h, st, none) := by
  simp [remove, hocc, hid, h1]

theorem remove_of_mismatch (w : RcWorld) (st : ObjectStore T) (h : ObjectRef)
    (obj : Object T) (hocc : slabGet st.slab h.index = some obj)
    (hid : obj.rc ≠ h.rc) : remove w st h = none := by
  simp [remove, hocc, hid]

theorem remove_of_vacant (w : RcWorld) (st : ObjectStore T) (h : ObjectRef)
    (hocc : slabGet st.slab h.index = none) : remove w st h = none := by
  simp [remove, hocc]

/-! ### Concrete scenarios -/

/-- The initial world of reference counts: nothing allocated. -/
def w0 : RcWorld := ⟨fun _ => 0, 0⟩

/-- Insert value 10 into a fresh store A. -/
def insA : RcWorld × ObjectStore Nat × ObjectRef :=
  insert w0 (emptyStore Nat) 10

/-- With the same world of markers, insert value 20 into a second fresh
store B (so index 0 of B is occupied by a different insertion than index 0
of A). -/
def insB : RcWorld × ObjectStore Nat × ObjectRef :=
  insert insA.1 (emptyStore Nat) 20

/-! ### Claim theorems -/

/-- C1: for every store state, `clean()` removes exactly those slots whose
weak liveness witness reports zero strong holders and no other slot: a
slot survives `clean` with its contents iff it was occupied and its
marker's strong count is positive, so a slot whose strong count has
reached zero is removed by the next `clean()` call. -/
theorem clean_removes_exactly_dead (w : RcWorld) (st : ObjectStore T)
    (i : Nat) (obj : Object T) :
    slabGet (clean w st).slab i = some obj ↔
      slabGet st.slab i = some obj ∧ 0 < w.strong obj.rc :=
  slabGet_clean w st i obj

/-- C2: `remove(handle)` on a valid handle (its slot occupied and its
marker matching the slot's weak witness) never panics; it returns the
stored value exactly when the consumed handle was the sole remaining
strong holder, in which case that slot (and no other) is removed;
otherwise it returns `none` and the store is left entirely unchanged, so
the slot is still accessible through every surviving clone. -/
theorem remove_sole_holder (w : RcWorld) (st : ObjectStore T)
    (h : ObjectRef) (obj : Object T)
    (hocc : slabGet st.slab h.index = some obj) (hid : obj.rc = h.rc) :
    ∃ w2 st2 r, remove w st h = some (w2, st2, r) ∧
      (r = some obj.data ↔ w.strong h.rc = 1) ∧
      (∀ j, j ≠ h.index → slabGet st2.slab j = slabGet st.slab j) ∧
      (w.strong h.rc = 1 → slabGet st2.slab h.index = none) ∧
      (w.strong h.rc ≠ 1 → r = none ∧ st2 = st) := by
  by_cases h1 : w.strong h.rc = 1
  · refine ⟨_, _, some obj.data, remove_of_last w st h obj hocc hid h1,
      ?_, ?_, ?_, ?_⟩
    · exact iff_of_true rfl h1
    · intro j hj
      exact slabGet_set_ne st.slab none (fun he => hj he.symm)
    · intro _
      have hi : h.index < st.slab.length := lt_length_of_slabGet _ hocc
      exact slabGet_set_self st.slab h.index none hi
    · intro hc
      exact absurd h1 hc
  · refine ⟨_, _, none, remove_of_shared w st h obj hocc hid h1,
      ?_, ?_, ?_, ?_⟩
    · constructor
      · intro he
        exact Option.noConfusion he
      · intro he
        exact absurd he h1
    · intro j _
      rfl
    · intro hc
      exact absurd hc h1
    · intro _
      exact ⟨rfl, rfl⟩

/-- C5: round-trip: `get` applied to the handle returned by `insert v`
returns `v`; and `remove(handle)`, called after the only other clone of
the handle has been dropped, returns the originally inserted value. -/
theorem insert_roundtrip (w : RcWorld) (st : ObjectStore T) (v : T) :
    get (insert w st v).2.1 (insert w st v).2.2 = some v ∧
    ∃ w3 st3,
      remove
        (dropRef (cloneRef (insert w st v).1 (insert w st v).2.2).1
          (cloneRef (insert w st v).1 (insert w st v).2.2).2)
        (insert w st v).2.1 (insert w st v).2.2 =
        some (w3, st3, some v) := by
  have hocc : slabGet (insert w st v).2.1.slab (insert w st v).2.2.index =
      some ⟨w.fresh, v⟩ :=
    slabGet_insert_new st.slab ⟨w.fresh, v⟩
  constructor
  · show (slabGet (insert w st v).2.1.slab (insert w st v).2.2.index).map
      Object.data = some v
    rw [hocc]
    rfl
  · have h1 : (dropRef (cloneRef (insert w st v).1 (insert w st v).2.2).1
        (cloneRef (insert w st v).1 (insert w st v).2.2).2).strong
        (insert w st v).2.2.rc = 1 := by
      simp [insert, cloneRef, dropRef]
    exact ⟨_, _, remove_of_last _ _ _ ⟨w.fresh, v⟩ hocc rfl h1⟩

/-- C3: for every sequence of insert/clone/drop operations run from the
initial state, each marker's strong count equals the number of un-dropped
handle clones carrying that marker; and a drop never frees anything by
itself: a drop step leaves the store untouched, so a slot whose count
reached zero stays in the arena until an explicit `clean` or `remove`. -/
theorem strong_count_eq_live_clones (ops : List (Op T)) :
    (∀ m, (run ops).world.strong m =
      (run ops).handles.countP (fun h => h.rc == m)) ∧
    (∀ (s : TState T) (j : Nat), (step s (Op.dr j)).store = s.store) := by
  constructor
  · exact (goodState_run ops).2
  · intro s j
    simp only [step]
    cases s.handles.get? j <;> rfl

/-- C4: `clean` leaves every surviving slot (one whose marker still has a
positive strong count) at its original index with its original contents,
still resolvable through its original handle. -/
theorem clean_preserves_survivors (w : RcWorld) (st : ObjectStore T)
    (h : ObjectRef) (obj : Object T)
    (hocc : slabGet st.slab h.index = some obj)
    (hlive : 0 < w.strong obj.rc) :
    slabGet (clean w st).slab h.index = some obj ∧
      get (clean w st) h = some obj.data := by
  have hs := (slabGet_clean w st h.index obj).mpr ⟨hocc, hlive⟩
  refine ⟨hs, ?_⟩
  show (slabGet (clean w st).slab h.index).map Object.data = some obj.data
  rw [hs]
  rfl

/-- C4 witness: the concrete one-slot store A, whose only handle is still
live, survives a `clean` at index 0 with value 10. -/
theorem clean_preserves_survivors_witness :
    slabGet (clean insA.1 insA.2.1).slab insA.2.2.index =
        some ⟨0, 10⟩ ∧
      get (clean insA.1 insA.2.1) insA.2.2 = some 10 :=
  clean_preserves_survivors insA.1 insA.2.1 insA.2.2 ⟨0, 10⟩ (by decide)
    (by decide)

/-- C2 witness: instantiated at the concrete store A whose single handle
is the sole strong holder of slot 0. -/
theorem remove_sole_holder_witness :
    ∃ w2 st2 r, remove insA.1 insA.2.1 insA.2.2 = some (w2, st2, r) ∧
      (r = some 10 ↔ insA.1.strong insA.2.2.rc = 1) ∧
      (∀ j, j ≠ insA.2.2.index →
        slabGet st2.slab j = slabGet insA.2.1.slab j) ∧
      (insA.1.strong insA.2.2.rc = 1 →
        slabGet st2.slab insA.2.2.index = none) ∧
      (insA.1.strong insA.2.2.rc ≠ 1 → r = none ∧ st2 = insA.2.1) :=
  remove_sole_holder insA.1 insA.2.1 insA.2.2 ⟨0, 10⟩ (by decide) rfl

/-- C6 counterexample: the claim fails for `get`/`get_mut`: a handle
minted by store A, resolved against store B, does not fail — it silently
returns store B's own value 20, stored there by a different insertion
(the markers differ). -/
theorem get_foreign_no_panic :
    get insB.2.1 insA.2.2 = some 20 ∧ getMut insB.2.1 insA.2.2 = some 20 ∧
      insA.2.2.rc ≠ insB.2.2.rc := by
  refine ⟨rfl, rfl, ?_⟩
  decide

/-- C6 amended: only `remove` detects a foreign handle: when the handle's
slot index is occupied by an insertion whose weak witness differs from
the handle's marker, `remove` panics, while `get` and `get_mut` perform
no identity check and silently return the value stored at that index. -/
theorem foreign_handle_outcomes (w : RcWorld) (st : ObjectStore T)
    (h : ObjectRef) (obj : Object T)
    (hocc : slabGet st.slab h.index = some obj)
    (hforeign : obj.rc ≠ h.rc) :
    remove w st h = none ∧ get st h = some obj.data ∧
      getMut st h = some obj.data := by
  refine ⟨remove_of_mismatch w st h obj hocc hforeign, ?_, ?_⟩
  · show (slabGet st.slab h.index).map Object.data = some obj.data
    rw [hocc]
    rfl
  · show (slabGet st.slab h.index).map Object.data = some obj.data
    rw [hocc]
    rfl

/-- C6 amended witness: store A's handle against store B: `remove` panics
while `get`/`get_mut` return B's value. -/
theorem foreign_handle_outcomes_witness :
    remove insB.1 insB.2.1 insA.2.2 = none ∧
      get insB.2.1 insA.2.2 = some 20 ∧
      getMut insB.2.1 insA.2.2 = some 20 :=
  foreign_handle_outcomes insB.1 insB.2.1 insA.2.2 ⟨1, 20⟩ (by decide)
    (by decide)

/-- C7: `remove` completes without panicking exactly when the indexed
slot is occupied and its recorded weak witness equals the handle's
strong-marker identity; on a mismatch (or vacant slot) it panics before
taking any removal decision. -/
theorem remove_checks_identity (w : RcWorld) (st : ObjectStore T)
    (h : ObjectRef) :
    remove w st h ≠ none ↔
      ∃ obj, slabGet st.slab h.index = some obj ∧ obj.rc = h.rc := by
  constructor
  · intro hne
    cases hg : slabGet st.slab h.index with
    | none => exact absurd (remove_of_vacant w st h hg) hne
    | some obj =>
      by_cases hid : obj.rc = h.rc
      · exact ⟨obj, rfl, hid⟩
      · exact absurd (remove_of_mismatch w st h obj hg hid) hne
  · rintro ⟨obj, hocc, hid⟩
    by_cases h1 : w.strong h.rc = 1
    · rw [remove_of_last w st h obj hocc hid h1]
      exact fun he => Option.noConfusion he
    · rw [remove_of_shared w st h obj hocc hid h1]
      exact fun he => Option.noConfusion he

/-- Scenario for C8: insert "a" into a fresh store. -/
def c8ins : RcWorld × ObjectStore String × ObjectRef :=
  insert w0 (emptyStore String) "a"

/-- The original handle of the C8 scenario. -/
def c8h1 : ObjectRef := c8ins.2.2

/-- Cloning the original handle. -/
def c8clone : RcWorld × ObjectRef := cloneRef c8ins.1 c8h1

/-- The cloned handle. -/
def c8h2 : ObjectRef := c8clone.2

/-- World after dropping the original handle (the clone is still live). -/
def c8wa : RcWorld := dropRef c8clone.1 c8h1

/-- Store after the first `clean`. -/
def c8st1 : ObjectStore String := clean c8wa c8ins.2.1

/-- World after also dropping the clone. -/
def c8wb : RcWorld := dropRef c8wa c8h2

/-- Store after the second `clean`. -/
def c8st2 : ObjectStore String := clean c8wb c8st1

/-- C8: in the scenario insert "a" / clone / drop the original handle,
`clean` leaves the slot intact and resolvable through the surviving
clone; only after the clone is also dropped does the next `clean` remove
the slot. -/
theorem clean_waits_for_last_clone :
    slabGet c8st1.slab c8h2.index = some ⟨0, "a"⟩ ∧
      get c8st1 c8h2 = some "a" ∧
      slabGet c8st2.slab c8h2.index = none :=
  ⟨rfl, rfl, rfl⟩

/-- Scenario for C9: insert 10, remove it through its only handle
(freeing index 0), then insert 20, which reuses index 0 under a fresh
marker. -/
def c9ins : RcWorld × ObjectStore Nat × ObjectRef :=
  insert w0 (emptyStore Nat) 10

/-- The stale first handle of the C9 scenario. -/
def c9h1 : ObjectRef := c9ins.2.2

/-- State after eagerly removing the only handle: index 0 is vacated. -/
def c9afterRemove : RcWorld × ObjectStore Nat × Option Nat :=
  (remove c9ins.1 c9ins.2.1 c9h1).getD ⟨w0, emptyStore Nat, none⟩

/-- A second insertion, which reuses the freed index 0. -/
def c9ins2 : RcWorld × ObjectStore Nat × ObjectRef :=
  insert c9afterRemove.1 c9afterRemove.2.1 20

/-- C9: `get` and `get_mut` are pure index lookups with no identity
check: whenever the handle's slot index is occupied they return the value
stored there, and they panic exactly when the slot is vacant; in
particular the stale first handle of the reuse scenario, whose index was
freed and reused by an unrelated insertion, silently resolves to the new
value 20. -/
theorem get_is_pure_index_lookup :
    (∀ (S : Type) (st : ObjectStore S) (h : ObjectRef),
      (∃ obj, slabGet st.slab h.index = some obj ∧
        get st h = some obj.data ∧ getMut st h = some obj.data) ∨
      (slabGet st.slab h.index = none ∧ get st h = none ∧
        getMut st h = none)) ∧
    (c9ins2.2.2.index = c9h1.index ∧ c9ins2.2.2.rc ≠ c9h1.rc ∧
      get c9ins2.2.1 c9h1 = some 20) := by
  constructor
  · intro S st h
    cases hg : slabGet st.slab h.index with
    | none =>
      refine Or.inr ⟨rfl, ?_, ?_⟩ <;>
        · show (slabGet st.slab h.index).map Object.data = none
          rw [hg]
          rfl
    | some obj =>
      refine Or.inl ⟨obj, rfl, ?_, ?_⟩ <;>
        · show (slabGet st.slab h.index).map Object.data = some obj.data
          rw [hg]
          rfl
  · exact ⟨rfl, by decide, rfl⟩

/-- C10: `insert` never modifies a pre-existing slot: every slot occupied
before `insert v` keeps its index, weak witness and value afterwards, and
every previously issued handle for it still resolves to the same value. -/
theorem insert_preserves_slots (w : RcWorld) (st : ObjectStore T) (v : T)
    (h : ObjectRef) (obj : Object T)
    (hocc : slabGet st.slab h.index = some obj) :
    slabGet (insert w st v).2.1.slab h.index = some obj ∧
      get (insert w st v).2.1 h = some obj.data := by
  have hp : slabGet (insert w st v).2.1.slab h.index = some obj := by
    show slabGet (slabInsert st.slab ⟨w.fresh, v⟩).1 h.index = some obj
    exact slabGet_insert_preserved st.slab _ hocc
  refine ⟨hp, ?_⟩
  show (slabGet (insert w st v).2.1.slab h.index).map Object.data =
    some obj.data
  rw [hp]
  rfl

/-- C10 witness: inserting 30 into the concrete store A leaves slot 0
(holding 10) untouched and its handle resolving to 10. -/
theorem insert_preserves_slots_witness :
    slabGet (insert insA.1 insA.2.1 30).2.1.slab insA.2.2.index =
        some ⟨0, 10⟩ ∧
      get (insert insA.1 insA.2.1 30).2.1 insA.2.2 = some 10 :=
  insert_preserves_slots insA.1 insA.2.1 30 insA.2.2 ⟨0, 10⟩ (by decide)

end RemoteRef
